import Mathlib

/-!
# team2896 kernel helpers (`src/private/kernel.hh`)

A shallow embedding of the four inline helpers `smalloc`, `sfree`, `now` and
`sleep`.  The C library and the C++ standard library are the environment:

* the heap is the set of live blocks together with the list of allocator calls
  made so far; what `malloc` answers is an argument chosen by the environment;
* the clock reading `to_time_t(high_resolution_clock::now())` is an argument;
* `std::this_thread::sleep_for` advances an explicit clock by the requested
  duration plus a scheduling latency chosen by the environment.

`size_t` is an unsigned integer of `w` bits, `long` (both `time_t` and
`__kernel_clock_t` on Linux) a signed one of `w` bits.
-/

namespace team2896

/-! ## Heap -/

/-- Address held by a `void*`. -/
abbrev Ptr := Nat

/-- The null pointer is address zero. -/
def nullptr : Ptr := 0

/-- Calls received by the C library allocator. -/
inductive AllocCall where
  | malloc (bytes : Nat)
  | free (p : Ptr)
  deriving DecidableEq, Repr

/-- Heap state: the blocks that are live, and the allocator calls made so far. -/
structure Heap where
  live : Finset Ptr
  calls : List AllocCall
  deriving DecidableEq

/-- Outcome of running a helper on a heap: it returns a value and leaves a heap,
or the behaviour is undefined. -/
inductive Run (α : Type) where
  | returns (value : α) (heap : Heap)
  | undefined
  deriving DecidableEq

/-- C library `malloc(bytes)`.  The environment answers `r`: the null pointer when
the allocation fails, otherwise the address of the new block, which becomes live. -/
def malloc (bytes : Nat) (r : Ptr) (h : Heap) : Ptr × Heap :=
  if r = nullptr then
    (nullptr, { live := h.live, calls := h.calls ++ [AllocCall.malloc bytes] })
  else
    (r, { live := insert r h.live, calls := h.calls ++ [AllocCall.malloc bytes] })

/-- C library `free(p)`: nothing happens to the live set for the null pointer, a
live block stops being live, and any other argument is undefined behaviour
(`none`). -/
def free (p : Ptr) (h : Heap) : Option Heap :=
  if p = nullptr then
    some { live := h.live, calls := h.calls ++ [AllocCall.free p] }
  else if p ∈ h.live then
    some { live := h.live.erase p, calls := h.calls ++ [AllocCall.free p] }
  else
    none

/-- Source `smalloc<_Ty, _Sz>()`:
`void* flag = static_cast<void*>(malloc(sizeof(_Ty) * _Sz));`
`return (flag != nullptr ? flag : nullptr);`
The product is a `size_t` product, hence taken modulo `2 ^ w`. -/
def smalloc (w sizeofTy Sz : Nat) (r : Ptr) (h : Heap) : Ptr × Heap :=
  let res := malloc ((sizeofTy * Sz) % 2 ^ w) r h
  let flag := res.1
  (if flag ≠ nullptr then flag else nullptr, res.2)

/-- Source `sfree(void* memory)`:
`if (memory) { free(memory); return 0; } else { return {}; }`
The result is a `std::optional<__u8>`. -/
def sfree (memory : Ptr) (h : Heap) : Run (Option Nat) :=
  if memory ≠ nullptr then
    match free memory h with
    | some h1 => Run.returns (some 0) h1
    | none => Run.undefined
  else
    Run.returns none h

/-! ## Clock -/

/-- Half of the range of a signed `w`-bit integer: `long` covers
`-halfRange w ≤ x < halfRange w`. -/
def halfRange (w : Nat) : Int := 2 ^ (w - 1)

/-- Values of a signed `w`-bit integer (`time_t`, `__kernel_clock_t`). -/
def isLong (w : Nat) (x : Int) : Prop := -halfRange w ≤ x ∧ x < halfRange w

instance (w : Nat) (x : Int) : Decidable (isLong w x) := by
  unfold isLong
  infer_instance

/-- Conversion of an integer to the signed `w`-bit type of the function result
(`__kernel_clock_t`), two's complement. -/
def toLong (w : Nat) (x : Int) : Int :=
  (x + halfRange w) % (2 * halfRange w) - halfRange w

/-- The macro `NULL` used as an integer. -/
def NULL : Int := 0

/-- Source `now()`:
`auto time = high_resolution_clock::to_time_t(high_resolution_clock::now());`
`return (time ? time : NULL);`
`time` is the reading of the clock as a `time_t`; the result is converted to the
return type `__kernel_clock_t`. -/
def now (w : Nat) (time : Int) : Int :=
  toLong w (if time ≠ 0 then time else NULL)

/-! ## Sleep -/

/-- How a call ends: control comes back to the caller, or the behaviour is
undefined. -/
inductive Completion where
  | returned
  | undefined
  deriving DecidableEq, Repr

/-- Observation of one call of `sleep`: the number of seconds asked of
`std::this_thread::sleep_for`, the clock (in nanoseconds) when the body is done,
and how the call ends. -/
structure SleepRun where
  requested : Nat
  clock : Nat
  completion : Completion
  deriving DecidableEq, Repr

/-- Library `std::this_thread::sleep_for(std::chrono::seconds(secs))` on a clock
counted in nanoseconds: the thread is blocked for at least the duration, the
excess `latency` being chosen by the environment, and the call returns. -/
def sleep_for (secs latency clock : Nat) : Nat × Completion :=
  (clock + secs * 1000000000 + latency, Completion.returned)

/-- Effect of `__attribute__ ((noreturn))` on a function whose body comes to its
end: returning from such a function is undefined behaviour. -/
def noreturn (body : Nat × Completion) : Nat × Completion :=
  match body.2 with
  | Completion.returned => (body.1, Completion.undefined)
  | Completion.undefined => (body.1, Completion.undefined)

/-- Source `sleep(const __u8 time)`, declared `__attribute__ ((noreturn))`:
`std::this_thread::sleep_for(std::chrono::seconds(time));`
The argument is a `__u8`, hence taken modulo `256`. -/
def sleep (time latency clock : Nat) : SleepRun :=
  let secs := time % 256
  let res := noreturn (sleep_for secs latency clock)
  { requested := secs, clock := res.1, completion := res.2 }

/-! ## Theorems: release -/

/-- C1: `sfree` returns the absent optional exactly when the handle is null, and
`sfree(nullptr)` never returns the success status `0`. -/
theorem sfree_absent_iff_null (memory : Ptr) (h : Heap) :
    ((∃ h1, sfree memory h = Run.returns none h1) ↔ memory = nullptr) ∧
    (∀ h1, sfree nullptr h ≠ Run.returns (some 0) h1) := by
  refine ⟨⟨?_, ?_⟩, ?_⟩
  · rintro ⟨h1, hrun⟩
    by_contra hne
    unfold sfree at hrun
    rw [if_pos hne] at hrun
    cases hfree : free memory h with
    | none => rw [hfree] at hrun; cases hrun
    | some h2 => rw [hfree] at hrun; cases hrun
  · intro hnull
    exact ⟨h, by simp [sfree, hnull]⟩
  · intro h1 hrun
    simp [sfree] at hrun

/-- C2: for a non-null handle that is live, `sfree` returns the present optional
holding `0`, and the handle is not live afterwards. -/
theorem sfree_live_success (memory : Ptr) (h : Heap)
    (hnn : memory ≠ nullptr) (hlive : memory ∈ h.live) :
    sfree memory h =
        Run.returns (some 0)
          { live := h.live.erase memory, calls := h.calls ++ [AllocCall.free memory] } ∧
      memory ∉ h.live.erase memory := by
  refine ⟨?_, Finset.not_mem_erase memory h.live⟩
  simp [sfree, free, hnn, hlive]

/-- Instance of C2: releasing block `7` of the heap whose live blocks are `3` and `7`. -/
theorem sfree_live_success_witness :
    (7 : Ptr) ≠ nullptr ∧ (7 : Ptr) ∈ (Heap.mk {3, 7} []).live ∧
      sfree 7 (Heap.mk {3, 7} []) =
        Run.returns (some 0)
          { live := ({3, 7} : Finset Ptr).erase 7, calls := [] ++ [AllocCall.free 7] } ∧
      (7 : Ptr) ∉ ({3, 7} : Finset Ptr).erase 7 :=
  ⟨by decide, by decide, sfree_live_success 7 (Heap.mk {3, 7} []) (by decide) (by decide)⟩

/-- C9: `sfree(nullptr)` leaves the heap state as it was, the list of allocator
calls included, so `free` is not invoked. -/
theorem sfree_null_noop (h : Heap) :
    sfree nullptr h = Run.returns none h ∧
      ∀ v h1, sfree nullptr h = Run.returns v h1 →
        h1.live = h.live ∧ h1.calls = h.calls := by
  refine ⟨by simp [sfree], ?_⟩
  intro v h1 hrun
  simp [sfree] at hrun
  obtain ⟨-, rfl⟩ := hrun
  exact ⟨rfl, rfl⟩

/-! ## Theorems: allocation -/

/-- C4: `smalloc` returns exactly what the allocator returned, and leaves the heap
the allocator left: the null handle exactly when the allocation failed, and
otherwise the handle the allocator produced. -/
theorem smalloc_eq_malloc (w sizeofTy Sz : Nat) (r : Ptr) (h : Heap) :
    smalloc w sizeofTy Sz r h = malloc ((sizeofTy * Sz) % 2 ^ w) r h ∧
      (smalloc w sizeofTy Sz r h).1 = r ∧
      ((smalloc w sizeofTy Sz r h).1 = nullptr ↔ r = nullptr) := by
  have hfst : (smalloc w sizeofTy Sz r h).1 = r := by
    by_cases hr : r = nullptr <;> simp [smalloc, malloc, hr]
  refine ⟨?_, hfst, by rw [hfst]⟩
  by_cases hr : r = nullptr <;> simp [smalloc, malloc, hr]

/-- C5, evaluated on the code: with a 64-bit `size_t`, an element of 8 bytes and a
count of `2 ^ 61`, the product is `2 ^ 64` and `smalloc` asks `malloc` for
`0` bytes; with a 32-bit `size_t`, 4 bytes and a count of `2 ^ 30` likewise. -/
theorem smalloc_request_wraps :
    (smalloc 64 8 (2 ^ 61) nullptr (Heap.mk ∅ [])).2.calls = [AllocCall.malloc 0] ∧
      8 * 2 ^ 61 = 2 ^ 64 ∧
      (smalloc 32 4 (2 ^ 30) nullptr (Heap.mk ∅ [])).2.calls = [AllocCall.malloc 0] ∧
      4 * 2 ^ 30 = 2 ^ 32 := by
  refine ⟨?_, by norm_num, ?_, by norm_num⟩ <;> simp [smalloc, malloc]

/-- When the product of the element size and the count fits in a `size_t`, the
number of bytes `smalloc` asks of `malloc` is that product. -/
theorem smalloc_request_exact (w sizeofTy Sz : Nat) (r : Ptr) (h : Heap)
    (hfit : sizeofTy * Sz < 2 ^ w) :
    (smalloc w sizeofTy Sz r h).2.calls = h.calls ++ [AllocCall.malloc (sizeofTy * Sz)] := by
  by_cases hr : r = nullptr <;> simp [smalloc, malloc, hr, Nat.mod_eq_of_lt hfit]

/-- C3 fails as stated: when the allocator answers the null pointer, `sfree` on
the result of `smalloc<_Ty, 1>()` returns the absent optional, not `0`. -/
theorem sfree_smalloc_failed_not_success :
    0 < 1 ∧
      sfree (smalloc 64 4 1 nullptr (Heap.mk ∅ [])).1 (smalloc 64 4 1 nullptr (Heap.mk ∅ [])).2 =
        Run.returns none (Heap.mk ∅ [AllocCall.malloc 4]) ∧
      ¬ ∃ h2,
        sfree (smalloc 64 4 1 nullptr (Heap.mk ∅ [])).1 (smalloc 64 4 1 nullptr (Heap.mk ∅ [])).2 =
          Run.returns (some 0) h2 := by
  have hrun :
      sfree (smalloc 64 4 1 nullptr (Heap.mk ∅ [])).1 (smalloc 64 4 1 nullptr (Heap.mk ∅ [])).2 =
        Run.returns none (Heap.mk ∅ [AllocCall.malloc 4]) := by
    simp [sfree, smalloc, malloc]
  refine ⟨by decide, hrun, ?_⟩
  rintro ⟨h2, heq⟩
  rw [hrun] at heq
  cases heq

/-- C3, amended: for a count above zero, `sfree` on the result of `smalloc`
returns the success status `0` when the allocator answered a block, and the
absent optional when the allocator answered the null pointer. -/
theorem sfree_smalloc_status (w sizeofTy Sz : Nat) (r : Ptr) (h : Heap) (hcount : 0 < Sz) :
    (r ≠ nullptr →
        ∃ h2, sfree (smalloc w sizeofTy Sz r h).1 (smalloc w sizeofTy Sz r h).2 =
          Run.returns (some 0) h2) ∧
      (r = nullptr →
        ∃ h2, sfree (smalloc w sizeofTy Sz r h).1 (smalloc w sizeofTy Sz r h).2 =
          Run.returns none h2) := by
  have _ := hcount
  constructor
  · intro hr
    exact ⟨_, by simp [sfree, free, smalloc, malloc, hr]; rfl⟩
  · intro hr
    exact ⟨_, by simp [sfree, smalloc, malloc, hr]; rfl⟩

/-- Instance of the amended C3: `smalloc<_Ty, 3>()` with 4-byte elements, answered with block `5`. -/
theorem sfree_smalloc_status_witness :
    0 < 3 ∧
      ((5 : Ptr) ≠ nullptr →
        ∃ h2, sfree (smalloc 64 4 3 5 (Heap.mk {2} [])).1 (smalloc 64 4 3 5 (Heap.mk {2} [])).2 =
          Run.returns (some 0) h2) ∧
      ((5 : Ptr) = nullptr →
        ∃ h2, sfree (smalloc 64 4 3 5 (Heap.mk {2} [])).1 (smalloc 64 4 3 5 (Heap.mk {2} [])).2 =
          Run.returns none h2) :=
  ⟨by decide, sfree_smalloc_status 64 4 3 5 (Heap.mk {2} []) (by decide)⟩

/-- C10: for a count above zero and an allocator that answers either the null
pointer or a block that was not live, `smalloc` followed by `sfree` on its result
returns, and the set of live blocks is the one before the two calls. -/
theorem smalloc_sfree_no_leak (w sizeofTy Sz : Nat) (r : Ptr) (h : Heap)
    (hcount : 0 < Sz) (hfresh : r ≠ nullptr → r ∉ h.live) :
    ∃ v h2, sfree (smalloc w sizeofTy Sz r h).1 (smalloc w sizeofTy Sz r h).2 =
        Run.returns v h2 ∧ h2.live = h.live := by
  have _ := hcount
  by_cases hr : r = nullptr
  · refine ⟨none, Heap.mk h.live (h.calls ++ [AllocCall.malloc ((sizeofTy * Sz) % 2 ^ w)]), ?_, rfl⟩
    simp [sfree, smalloc, malloc, hr]
  · refine ⟨some 0, Heap.mk ((insert r h.live).erase r)
        ((h.calls ++ [AllocCall.malloc ((sizeofTy * Sz) % 2 ^ w)]) ++ [AllocCall.free r]), ?_, ?_⟩
    · simp [sfree, free, smalloc, malloc, hr]
    · exact Finset.erase_insert (hfresh hr)

/-- Instance of C10: block `5` is allocated and released on the heap whose only live block is `2`. -/
theorem smalloc_sfree_no_leak_witness :
    0 < 3 ∧ ((5 : Ptr) ≠ nullptr → (5 : Ptr) ∉ (Heap.mk {2} []).live) ∧
      ∃ v h2, sfree (smalloc 64 4 3 5 (Heap.mk {2} [])).1 (smalloc 64 4 3 5 (Heap.mk {2} [])).2 =
        Run.returns v h2 ∧ h2.live = (Heap.mk {2} []).live :=
  ⟨by decide, fun _ => by decide,
    smalloc_sfree_no_leak 64 4 3 5 (Heap.mk {2} []) (by decide) (fun _ => by decide)⟩

/-! ## Theorems: clock -/

/-- Converting a value that is already a signed `w`-bit integer does not change it. -/
theorem toLong_of_isLong (w : Nat) (x : Int) (hx : isLong w x) : toLong w x = x := by
  obtain ⟨hlo, hhi⟩ := hx
  unfold toLong
  rw [Int.emod_eq_of_lt (by omega) (by omega)]
  omega

/-- C6: for every reading `t` of the clock as a `time_t`, `now()` returns the zero
sentinel when `t` is zero and `t` unchanged otherwise, that is, `now()` equals
`t`. -/
theorem now_eq_reading (w : Nat) (t : Int) (ht : isLong w t) :
    (t = 0 → now w t = NULL) ∧ (t ≠ 0 → now w t = t) ∧ now w t = t := by
  have hnow : now w t = t := by
    unfold now
    by_cases h0 : t = 0
    · subst h0
      simpa [NULL] using toLong_of_isLong w 0 ht
    · simpa [h0] using toLong_of_isLong w t ht
  refine ⟨fun h0 => ?_, fun _ => hnow, hnow⟩
  rw [hnow, h0]
  rfl

/-- Instance of C6 with a 64-bit `long` and the reading `1572393600`. -/
theorem now_eq_reading_witness :
    isLong 64 1572393600 ∧
      ((1572393600 : Int) = 0 → now 64 1572393600 = NULL) ∧
      ((1572393600 : Int) ≠ 0 → now 64 1572393600 = 1572393600) ∧
      now 64 1572393600 = 1572393600 :=
  ⟨by decide, now_eq_reading 64 1572393600 (by decide)⟩

/-- C8: for two readings `t1 ≤ t2` of the clock, the value `now()` returns for the
first is at most the value it returns for the second. -/
theorem now_monotone (w : Nat) (t1 t2 : Int) (h1 : isLong w t1) (h2 : isLong w t2)
    (hle : t1 ≤ t2) : now w t1 ≤ now w t2 := by
  have e1 : now w t1 = t1 := by
    unfold now
    by_cases h0 : t1 = 0
    · subst h0
      simpa [NULL] using toLong_of_isLong w 0 h1
    · simpa [h0] using toLong_of_isLong w t1 h1
  have e2 : now w t2 = t2 := by
    unfold now
    by_cases h0 : t2 = 0
    · subst h0
      simpa [NULL] using toLong_of_isLong w 0 h2
    · simpa [h0] using toLong_of_isLong w t2 h2
  rw [e1, e2]
  exact hle

/-- Instance of C8 with a 64-bit `long` and the readings `0` and `1572393600`. -/
theorem now_monotone_witness :
    isLong 64 0 ∧ isLong 64 1572393600 ∧ (0 : Int) ≤ 1572393600 ∧
      now 64 0 ≤ now 64 1572393600 :=
  ⟨by decide, by decide, by decide,
    now_monotone 64 0 1572393600 (by decide) (by decide) (by decide)⟩

/-! ## Theorems: sleep -/

/-- C7, evaluated on the code: `sleep(time)` asks `sleep_for` for `time % 256`
seconds and the clock advances by at least as much, but the body then comes to
the end of a function declared `noreturn`, so the call does not end with control
returned to the caller: the behaviour is undefined. -/
theorem sleep_returns_from_noreturn (time latency clock : Nat) :
    (sleep time latency clock).requested = time % 256 ∧
      clock + (time % 256) * 1000000000 ≤ (sleep time latency clock).clock ∧
      (sleep_for (time % 256) latency clock).2 = Completion.returned ∧
      (sleep time latency clock).completion = Completion.undefined ∧
      (sleep 1 0 0).completion ≠ Completion.returned := by
  refine ⟨rfl, ?_, rfl, rfl, by decide⟩
  simp [sleep, sleep_for, noreturn]

end team2896
